import Mathlib

/-!
Verification of the PokeProtocol peer-to-peer battle protocol.

Shallow embedding of the Python sources:
  battle.py      : damage formula, battle state, message handler
  reliability.py : sequence assignment, pending table, retransmission checker
  network.py     : peer node send and receive loop
  pokemon.py     : creature records (stats and per-type resistance rows)
Python floats are modelled by rationals, Python ints by integers (and
naturals where the source only ever holds non-negative counts).

The file first gives the embedded definitions, then the theorems.
-/

namespace PokeProtocol

/-! ## Definitions -/

/-- The built-in `round` of Python: round half to even (banker's rounding),
as applied by `int(round(damage))` in `compute_damage`. -/
def pyround (q : ℚ) : ℤ :=
  if q - ⌊q⌋ < 1/2 then ⌊q⌋
  else if (1 : ℚ)/2 < q - ⌊q⌋ then ⌊q⌋ + 1
  else if ⌊q⌋ % 2 = 0 then ⌊q⌋ else ⌊q⌋ + 1

/-- `battle.py::compute_damage`, step by step as in the source: the
defender stat is floored to `1.0` when `≤ 0`, the formula is evaluated,
the result rounded and clamped below at 1. -/
def compute_damage (attacker_stat defender_stat base_power
    type_effectiveness boost_multiplier : ℚ) (level : ℤ) : ℤ :=
  let ds : ℚ := if defender_stat ≤ 0 then 1 else defender_stat
  let part1 : ℚ := (2 * (level : ℚ)) / 5
  let part2 : ℚ := part1 + 2
  let ratio : ℚ := attacker_stat / ds
  let part3 : ℚ := part2 * base_power * ratio
  let part4 : ℚ := part3 / 50
  let part5 : ℚ := part4 + 2
  let damage : ℚ := part5 * type_effectiveness * boost_multiplier
  let damage_int : ℤ := pyround damage
  if damage_int < 1 then 1 else damage_int

/-- The damage formula of the spec (section 4.3), written from the words
of the spec: `levelFactor = (2*level)/5`, `base = levelFactor + 2`,
`ratio = attackerStat / defenderStat` with `defenderStat` floored to `1.0`
if `≤ 0`, `scaled = base * movePower * ratio / 50.0 + 2.0`,
`damage = scaled * typeEffectiveness * boostMultiplier`,
`result = max(1, round(damage))`. -/
def specDamage (attackerStat defenderStat movePower
    typeEffectiveness boostMultiplier : ℚ) (level : ℤ) : ℤ :=
  let levelFactor : ℚ := (2 * (level : ℚ)) / 5
  let base : ℚ := levelFactor + 2
  let ratio : ℚ := attackerStat / (if defenderStat ≤ 0 then 1 else defenderStat)
  let scaled1 : ℚ := base * movePower * ratio
  let scaled2 : ℚ := scaled1 / 50
  let scaled3 : ℚ := scaled2 + 2
  let damage : ℚ := scaled3 * typeEffectiveness * boostMultiplier
  max 1 (pyround damage)

/-- A network address, `(host, port)` as the socket address tuples of
Python. -/
abbrev Addr := String × ℕ

/-- `reliability.py::PendingMessage`: encoded payload (bytes as naturals),
destination, sequence number, last-sent timestamp (Python float, modelled
as a rational), retry count. The `msg_dict` field of the source (the
original message) is read by no claim and is omitted. -/
structure PendingMessage where
  payload : List ℕ
  dest : Addr
  seq : ℕ
  last_sent : ℚ
  retries : ℕ
  deriving Repr, DecidableEq

/-- `reliability.py::ReliabilityLayer.__init__` sets `self.next_seq = 1`. -/
def initial_next_seq : ℕ := 1

/-- `reliability.py::ReliabilityLayer.next_sequence`: returns the current
counter and increments it (under the lock of the layer, so calls are
atomic; the state is passed explicitly here). -/
def next_sequence (next_seq : ℕ) : ℕ × ℕ :=
  (next_seq, next_seq + 1)

/-- Counter value after `n` calls to `next_sequence`, starting from a
freshly constructed layer. -/
def seqStateAfter (n : ℕ) : ℕ :=
  (fun s => (next_sequence s).2)^[n] initial_next_seq

/-- Value returned by call number `n` (0-indexed) to `next_sequence` on a
single freshly constructed layer. -/
def nthSequence (n : ℕ) : ℕ :=
  (next_sequence (seqStateAfter n)).1

/-- The pending table of `reliability.py`: a Python dict keyed by sequence
number, modelled as an association list (keys distinct in any state the
layer produces, since `send_with_reliability` overwrites in place). -/
abbrev PendingTable := List (ℕ × PendingMessage)

/-- `reliability.py::ReliabilityLayer.received_ack`:
`if ack_num in self.pending: del self.pending[ack_num]` under the lock.
`del` on the dict removes the entry with that key. -/
def received_ack (pending : PendingTable) (ack_num : ℕ) : PendingTable :=
  if pending.any (fun e => e.1 == ack_num) then
    pending.filter (fun e => e.1 != ack_num)
  else pending

/-- `reliability.py::ReliabilityLayer._checker`, viewed from a single
pending entry whose acknowledgment never arrives (entries are scanned
independently, so the lifecycle of one entry does not depend on the
others). Each scan at time `now` applies the per-entry logic of the
source: `if now - pm.last_sent >= self.timeout`, then when
`pm.retries < self.max_retries` increment the retry count, reset
`last_sent` to `now` and retransmit the cached `pm.payload` to `pm.dest`
with its original sequence number, else delete the entry from
`self.pending`. `checkerRun` folds this over a list of scan times,
returning the final state of the entry (`none` once deleted) and the
emitted retransmissions as `(scan time, payload bytes, sequence number)`. -/
def checkerRun (timeout : ℚ) (max_retries : ℕ) :
    Option PendingMessage → List ℚ → Option PendingMessage × List (ℚ × List ℕ × ℕ)
  | st, [] => (st, [])
  | none, _ :: ts => checkerRun timeout max_retries none ts
  | some pm, t :: ts =>
    if timeout ≤ t - pm.last_sent then
      if pm.retries < max_retries then
        let pm2 : PendingMessage := { pm with retries := pm.retries + 1, last_sent := t }
        let rest := checkerRun timeout max_retries (some pm2) ts
        (rest.1, (t, pm.payload, pm.seq) :: rest.2)
      else checkerRun timeout max_retries none ts
    else checkerRun timeout max_retries (some pm) ts

/-- `spacedFrom gap t0 ts`: each time in `ts` is at least `gap` after its
predecessor, starting from `t0`. -/
def spacedFrom (gap : ℚ) : ℚ → List ℚ → Bool
  | _, [] => true
  | prev, t :: ts => (decide (gap ≤ t - prev) && spacedFrom gap t ts)

/-- The pending entry used by the C4 witness: freshly recorded
(`retries = 0`) at time 0 with a two-byte payload and sequence number 5. -/
def pendingW : PendingMessage :=
  { payload := [1, 2], dest := ("127.0.0.1", 9999), seq := 5, last_sent := 0, retries := 0 }

/-- `battle.py::BattleState`, restricted to the fields the
damage-application operations read and write: the two health values
(Python ints). Mutation happens under `self.lock`; state is passed
explicitly here. -/
structure BattleState where
  my_hp : ℤ
  peer_hp : ℤ
  deriving Repr, DecidableEq

/-- `battle.py::BattleState.apply_damage_to_peer`:
`self.peer_hp = max(0, int(self.peer_hp - dmg))` (the `int` cast is the
identity on Python ints). -/
def apply_damage_to_peer (st : BattleState) (dmg : ℤ) : BattleState :=
  { st with peer_hp := max 0 (st.peer_hp - dmg) }

/-- `battle.py::BattleState.apply_damage_to_me`:
`self.my_hp = max(0, int(self.my_hp - dmg))`. -/
def apply_damage_to_me (st : BattleState) (dmg : ℤ) : BattleState :=
  { st with my_hp := max 0 (st.my_hp - dmg) }

/-- Result of `network.py::PeerNode.send`: either the
"Error: No address to send to." path (print and return, nothing
transmitted) or delegation of the message to
`ReliabilityLayer.send_with_reliability` at the resolved destination. -/
inductive SendResult where
  | noDestination
  | delegated (dest : Addr)
  deriving Repr, DecidableEq

/-- `network.py::PeerNode.send`: `if addr is None: addr = self.peer_addr`;
if the resolved address is still `None`, report the error and return
without transmitting; otherwise pass the message through the reliability
layer. -/
def PeerNode_send (peer_addr : Option Addr) (addr : Option Addr) : SendResult :=
  match addr with
  | some a => SendResult.delegated a
  | none =>
    match peer_addr with
    | some a => SendResult.delegated a
    | none => SendResult.noDestination

/-- A parsed inbound message, restricted to the fields
`network.py::PeerNode._recv_loop` reads: the `message_type` string, the
parsed `sequence_number` (0 when absent or unparsable, per the safe int
conversion of the source; Python ints may be negative, hence `ℤ`), and
the parsed `ack_number` (0 when absent or unparsable). -/
structure InMsg where
  mtype : String
  seq : ℤ
  ack : ℤ
  deriving Repr, DecidableEq

/-- The `PeerNode` state touched by one receive-loop iteration: the set of
already-processed inbound sequence numbers (`self.processed_seqs`, a
Python set, modelled as a list) and the tracked peer address
(`self.peer_addr`). -/
structure NodeState where
  processed_seqs : List ℤ
  peer_addr : Option Addr
  deriving Repr, DecidableEq

/-- Effects of one receive-loop iteration: the updated node state, the
acknowledgment numbers transmitted back to the sender for this datagram,
whether the message was dispatched to the application handler (a handler
thread started), and the ack number forwarded to
`ReliabilityLayer.received_ack` (for inbound ACK messages). -/
structure RecvResult where
  state : NodeState
  acks_sent : List ℤ
  dispatched : Bool
  ack_forwarded : Option ℤ
  deriving Repr, DecidableEq

/-- `network.py::PeerNode._recv_loop` from `mtype = msg.get("message_type")`
on, for one parsed datagram `m` from sender `addr`: an ACK forwards its
nonzero `ack_number` to the reliability layer and is neither acknowledged
nor dispatched; a message with positive sequence number is always
acknowledged immediately, then dropped if the sequence number was already
processed, else marked processed; the peer address is auto-set on the
first session-establishing message; surviving messages are dispatched to
the handler. -/
def recv_step (st : NodeState) (m : InMsg) (addr : Addr) : RecvResult :=
  if m.mtype == "ACK" then
    { state := st, acks_sent := [], dispatched := false,
      ack_forwarded := if m.ack == 0 then none else some m.ack }
  else if 0 < m.seq then
    if st.processed_seqs.contains m.seq then
      { state := st, acks_sent := [m.seq], dispatched := false, ack_forwarded := none }
    else
      let st2 : NodeState := { st with processed_seqs := m.seq :: st.processed_seqs }
      let st3 : NodeState :=
        if st2.peer_addr.isNone &&
            (m.mtype == "HANDSHAKE_REQUEST" || m.mtype == "SPECTATOR_REQUEST" ||
              m.mtype == "HANDSHAKE_RESPONSE") then
          { st2 with peer_addr := some addr }
        else st2
      { state := st3, acks_sent := [m.seq], dispatched := true, ack_forwarded := none }
  else
    let st3 : NodeState :=
      if st.peer_addr.isNone &&
          (m.mtype == "HANDSHAKE_REQUEST" || m.mtype == "SPECTATOR_REQUEST" ||
            m.mtype == "HANDSHAKE_RESPONSE") then
        { st with peer_addr := some addr }
      else st
    { state := st3, acks_sent := [], dispatched := true, ack_forwarded := none }

/-- Number of datagrams in `msgs` that the receive loop dispatches to the
application handler with sequence number `s`, starting from node state
`st`. -/
def dispatch_count (st : NodeState) (msgs : List (InMsg × Addr)) (s : ℤ) : ℕ :=
  match msgs with
  | [] => 0
  | (m, a) :: rest =>
    (if (recv_step st m a).dispatched && m.seq == s then 1 else 0) +
      dispatch_count ((recv_step st m a).state) rest s

/-- `battle.py` handler, SPECTATOR_REQUEST branch (host role): the seed of
the HANDSHAKE_RESPONSE sent back to the spectator, given the current
integer time `t = int(time.time())`: `t & 0x7fffffff`, i.e. `t % 2^31`
for the non-negative times `time.time()` produces. -/
def spectator_response_seed (t : ℕ) : ℕ := t % 2^31

/-- A creature record as `pokemon.py::load_csv` builds it: the parsed
numeric stats and types, plus the raw CSV row kept (per the comment in
the source itself) "because it contains all the `against_fire`,
`against_bug` etc. which are needed for Type Effectiveness calculations
in battle.py". The raw row is modelled as an association list from column
name to an optional rational; `none` models an unparsable cell. -/
structure Pokemon where
  hp : ℤ
  attack : ℤ
  defense : ℤ
  sp_attack : ℤ
  sp_defense : ℤ
  type1 : String
  type2 : String
  raw_row : List (String × Option ℚ)
  deriving Repr, DecidableEq

/-- An entry of the handler move database in `battle.py::make_handler`. -/
structure Move where
  base_power : ℚ
  damage_category : String
  move_type : String
  deriving Repr, DecidableEq

/-- The move database of `battle.py::make_handler`. -/
def move_db : List (String × Move) :=
  [("tackle", Move.mk 40 "physical" "normal"),
   ("scratch", Move.mk 40 "physical" "normal"),
   ("thunderbolt", Move.mk 90 "special" "electric"),
   ("flamethrower", Move.mk 90 "special" "fire")]

/-- `str.lower` of Python, for the ASCII names appearing here. -/
def pyLower (s : String) : String := String.mk (s.data.map Char.toLower)

/-- `battle.py::make_handler.lookup_move`: look the lowercased name up in
`move_db`, with the default record
`\x7b"base_power": 50, "damage_category": "physical", "type": "normal"\x7d`
on a miss. -/
def lookup_move (name : String) : Move :=
  match move_db.find? (fun e => e.1 == pyLower name) with
  | some e => e.2
  | none => Move.mk 50 "physical" "normal"

/-- `battle.py` handler, DEFENSE_ANNOUNCE branch: the damage the attacker
computes on receiving the defense announcement, given its own creature,
its record of the peer creature, and its last announced move name. The
stat pair is chosen by the damage category of the move, and
`compute_damage` is called with attacker stat, defender stat and base
power only, so `type_effectiveness` and `boost_multiplier` take their
Python default value `1.0` and `level` its default `50`. -/
def defense_announce_damage (my_pokemon peer_pokemon : Pokemon) (move_name : String) : ℤ :=
  let moveinfo := lookup_move move_name
  let atk_stat : ℚ :=
    if moveinfo.damage_category == "physical" then my_pokemon.attack else my_pokemon.sp_attack
  let def_stat : ℚ :=
    if moveinfo.damage_category == "physical" then peer_pokemon.defense else peer_pokemon.sp_defense
  compute_damage atk_stat def_stat moveinfo.base_power 1 1 50

/-- Modelled from the spec (section 4.3) and claim C6: the same
computation, but with the type-effectiveness multiplier looked up in the
per-type resistance table of the defending creature (`raw_row` column
`against_<move type>`), defaulting to `1.0` when the entry is absent or
unparsable. -/
def claimed_defense_announce_damage (my_pokemon peer_pokemon : Pokemon)
    (move_name : String) : ℤ :=
  let moveinfo := lookup_move move_name
  let atk_stat : ℚ :=
    if moveinfo.damage_category == "physical" then my_pokemon.attack else my_pokemon.sp_attack
  let def_stat : ℚ :=
    if moveinfo.damage_category == "physical" then peer_pokemon.defense else peer_pokemon.sp_defense
  let te : ℚ :=
    match peer_pokemon.raw_row.find? (fun e => e.1 == "against_" ++ moveinfo.move_type) with
    | some (_, some v) => v
    | some (_, none) => 1
    | none => 1
  compute_damage atk_stat def_stat moveinfo.base_power te 1 50

/-- The attacking creature of the C6 failing input: special attack 100. -/
def attackerW : Pokemon := Pokemon.mk 35 55 40 100 50 "electric" "" []

/-- The defending creature of the C6 failing input: special defense 100
and a resistance row making electric moves deal double damage. -/
def defenderW : Pokemon :=
  Pokemon.mk 80 82 83 55 100 "water" "" [("against_electric", some 2)]

/-! ## Theorems -/

theorem clamp_eq_max (x : ℤ) : (if x < 1 then 1 else x) = max 1 x := by
  split <;> omega

theorem clamp_ge_one (x : ℤ) : 1 ≤ (if x < 1 then 1 else x) := by
  split <;> omega

/-- Claim C1: `compute_damage` implements the damage formula of the spec
exactly (for every input, in particular with level fixed at 50), and on
the fixed input attackerStat=100, defenderStat=100, basePower=90,
typeEffectiveness=1.0, boost=1.0, level=50 it returns the fixed,
deterministic positive integer 42 (the same on every invocation, the
function being pure). -/
theorem compute_damage_implements_spec_formula :
    (∀ a d bp te bo : ℚ, ∀ lvl : ℤ,
        compute_damage a d bp te bo lvl = specDamage a d bp te bo lvl) ∧
      compute_damage 100 100 90 1 1 50 = 42 ∧
      0 < compute_damage 100 100 90 1 1 50 := by
  refine ⟨fun a d bp te bo lvl => ?_,
    by norm_num [compute_damage, pyround], by norm_num [compute_damage, pyround]⟩
  unfold compute_damage specDamage
  exact clamp_eq_max _

/-- Claim C2: for every input, `compute_damage` returns at least 1, and a
defender stat that is zero or negative is floored to `1.0` before the
ratio is taken (so the result agrees with the result at defender stat 1,
and no division by zero occurs). -/
theorem compute_damage_at_least_one_and_zero_defender_floored
    (a d bp te bo : ℚ) (lvl : ℤ) :
    1 ≤ compute_damage a d bp te bo lvl ∧
      (d ≤ 0 → compute_damage a d bp te bo lvl = compute_damage a 1 bp te bo lvl) := by
  constructor
  · unfold compute_damage
    exact clamp_ge_one _
  · intro hd
    simp only [compute_damage, if_pos hd]
    norm_num

/-- Witness for C2 at a concrete input with a zero defender stat. -/
theorem compute_damage_at_least_one_witness :
    1 ≤ compute_damage 5 0 40 1 1 50 ∧
      compute_damage 5 0 40 1 1 50 = compute_damage 5 1 40 1 1 50 :=
  ⟨(compute_damage_at_least_one_and_zero_defender_floored 5 0 40 1 1 50).1,
   (compute_damage_at_least_one_and_zero_defender_floored 5 0 40 1 1 50).2 (by norm_num)⟩

theorem seqStateAfter_eq (n : ℕ) : seqStateAfter n = 1 + n := by
  induction n with
  | zero => rfl
  | succ k ih =>
    have h : seqStateAfter (k + 1) =
        (fun s => (next_sequence s).2) (seqStateAfter k) :=
      Function.iterate_succ_apply' _ _ _
    rw [h, ih]
    show 1 + k + 1 = 1 + (k + 1)
    omega

theorem nthSequence_eq (n : ℕ) : nthSequence n = 1 + n := by
  rw [nthSequence, seqStateAfter_eq]; rfl

/-- Claim C3: over any run of calls to `next_sequence` on one layer, the
first call returns 1, every later call returns a value strictly greater
than every previously returned value, and 0 is never returned. -/
theorem next_sequence_strictly_increasing_from_one :
    nthSequence 0 = 1 ∧
      (∀ m n : ℕ, m < n → nthSequence m < nthSequence n) ∧
      (∀ n : ℕ, nthSequence n ≠ 0) := by
  refine ⟨rfl, fun m n hmn => ?_, fun n => ?_⟩ <;> rw [nthSequence_eq]
  · rw [nthSequence_eq]; omega
  · omega

/-- Witness for C3: the third call returns a value strictly above the
return of the first call, and call 7 does not return 0. -/
theorem next_sequence_strictly_increasing_witness :
    nthSequence 0 = 1 ∧ nthSequence 0 < nthSequence 2 ∧ nthSequence 7 ≠ 0 :=
  ⟨next_sequence_strictly_increasing_from_one.1,
   next_sequence_strictly_increasing_from_one.2.1 0 2 (by omega),
   next_sequence_strictly_increasing_from_one.2.2 7⟩

theorem received_ack_no_key (pending : PendingTable) (a : ℕ) :
    ∀ e ∈ received_ack pending a, e.1 ≠ a := by
  intro e he
  unfold received_ack at he
  split at he
  · exact bne_iff_ne.mp (List.mem_filter.mp he).2
  · rename_i hguard
    intro hea
    rw [List.any_eq_true] at hguard
    push_neg at hguard
    exact hguard e he (beq_iff_eq.mpr hea)

/-- Claim C9: `received_ack` removes the matching entry if present, is
idempotent (a second acknowledgment of the same number leaves the table
unchanged and raises no error), and is a no-op when no entry with that
sequence number is pending. -/
theorem received_ack_idempotent (pending : PendingTable) (a : ℕ) :
    received_ack (received_ack pending a) a = received_ack pending a ∧
      (∀ e ∈ received_ack pending a, e.1 ≠ a) ∧
      ((∀ e ∈ pending, e.1 ≠ a) → received_ack pending a = pending) := by
  have hnone : ∀ t : PendingTable, (∀ e ∈ t, e.1 ≠ a) → received_ack t a = t := by
    intro t ht
    unfold received_ack
    rw [if_neg]
    rw [List.any_eq_true]
    push_neg
    exact fun e he hbeq => ht e he (beq_iff_eq.mp hbeq)
  exact ⟨hnone _ (received_ack_no_key pending a), received_ack_no_key pending a,
    hnone pending⟩

/-- Witness for C9 at a concrete one-entry table and an unmatched ack. -/
theorem received_ack_idempotent_witness :
    received_ack (received_ack [(1, PendingMessage.mk [7] ("h", 1) 1 0 0)] 2) 2 =
        received_ack [(1, PendingMessage.mk [7] ("h", 1) 1 0 0)] 2 ∧
      received_ack [(1, PendingMessage.mk [7] ("h", 1) 1 0 0)] 2 =
        [(1, PendingMessage.mk [7] ("h", 1) 1 0 0)] :=
  ⟨(received_ack_idempotent [(1, PendingMessage.mk [7] ("h", 1) 1 0 0)] 2).1,
   (received_ack_idempotent [(1, PendingMessage.mk [7] ("h", 1) 1 0 0)] 2).2.2
     (by intro e he; simp only [List.mem_singleton] at he; rw [he]; omega)⟩

theorem checkerRun_none (timeout : ℚ) (maxr : ℕ) (ts : List ℚ) :
    checkerRun timeout maxr none ts = (none, []) := by
  induction ts with
  | nil => rfl
  | cons t ts ih => simpa only [checkerRun] using ih

theorem checkerRun_some_spec (timeout : ℚ) (maxr : ℕ) (ts : List ℚ) :
    ∀ pm : PendingMessage, pm.retries ≤ maxr →
      (∀ e ∈ (checkerRun timeout maxr (some pm) ts).2,
          e.2.1 = pm.payload ∧ e.2.2 = pm.seq) ∧
        spacedFrom timeout pm.last_sent
          ((checkerRun timeout maxr (some pm) ts).2.map (fun e => e.1)) = true ∧
        ((checkerRun timeout maxr (some pm) ts).1 = none →
          (checkerRun timeout maxr (some pm) ts).2.length + pm.retries = maxr) := by
  induction ts with
  | nil =>
    intro pm _
    refine ⟨by simp [checkerRun], by simp [checkerRun, spacedFrom], by simp [checkerRun]⟩
  | cons t ts ih =>
    intro pm hr
    by_cases h1 : timeout ≤ t - pm.last_sent
    · by_cases h2 : pm.retries < maxr
      · have hstep : checkerRun timeout maxr (some pm) (t :: ts) =
            ((checkerRun timeout maxr
                (some { pm with retries := pm.retries + 1, last_sent := t }) ts).1,
              (t, pm.payload, pm.seq) ::
                (checkerRun timeout maxr
                  (some { pm with retries := pm.retries + 1, last_sent := t }) ts).2) := by
          simp only [checkerRun, if_pos h1, if_pos h2]
        obtain ⟨hA, hB, hC⟩ :=
          ih { pm with retries := pm.retries + 1, last_sent := t } (by simpa using h2)
        rw [hstep]
        refine ⟨?_, ?_, ?_⟩
        · intro e he
          rcases List.mem_cons.mp he with h | h
          · rw [h]; exact ⟨rfl, rfl⟩
          · exact hA e h
        · simp only [List.map_cons, spacedFrom, Bool.and_eq_true, decide_eq_true_eq]
          exact ⟨h1, hB⟩
        · intro hnone
          have h3 := hC hnone
          dsimp only at h3
          simp only [List.length_cons]
          omega
      · have hstep : checkerRun timeout maxr (some pm) (t :: ts) = (none, []) := by
          simp only [checkerRun, if_pos h1, if_neg h2]
          exact checkerRun_none timeout maxr ts
        rw [hstep]
        refine ⟨by simp, rfl, fun _ => ?_⟩
        simp only [List.length_nil]
        omega
    · have hstep : checkerRun timeout maxr (some pm) (t :: ts) =
          checkerRun timeout maxr (some pm) ts := by
        simp only [checkerRun, if_neg h1]
      rw [hstep]
      exact ih pm hr

/-- Claim C4: a pending entry whose acknowledgment never arrives is
retransmitted exactly `max_retries` additional times, every retransmission
carries the original cached payload bytes and sequence number, successive
sends (starting from the original send at `pm0.last_sent`) are at least
the configured timeout apart, and once the retry ceiling is reached the
next timeout expiry deletes the entry (emitting no further
retransmission). -/
theorem checker_retransmits_max_retries_then_drops
    (timeout : ℚ) (maxr : ℕ) (pm0 : PendingMessage) (ts : List ℚ)
    (h0 : pm0.retries = 0)
    (hdropped : (checkerRun timeout maxr (some pm0) ts).1 = none) :
    (checkerRun timeout maxr (some pm0) ts).2.length = maxr ∧
      (∀ e ∈ (checkerRun timeout maxr (some pm0) ts).2,
        e.2.1 = pm0.payload ∧ e.2.2 = pm0.seq) ∧
      spacedFrom timeout pm0.last_sent
        ((checkerRun timeout maxr (some pm0) ts).2.map (fun e => e.1)) = true ∧
      (∀ pm : PendingMessage, ∀ now : ℚ, pm.retries = maxr →
        timeout ≤ now - pm.last_sent →
        checkerRun timeout maxr (some pm) [now] = (none, [])) := by
  obtain ⟨hA, hB, hC⟩ := checkerRun_some_spec timeout maxr ts pm0 (by omega)
  refine ⟨by have := hC hdropped; omega, hA, hB, fun pm now hceil hexp => ?_⟩
  simp only [checkerRun, if_pos hexp, if_neg (by omega : ¬ pm.retries < maxr)]

/-- Witness for C4: with timeout 1 and max_retries 3, scans at times
1, 2, 3, 4 retransmit the entry exactly 3 times and then delete it. -/
theorem checker_retransmits_witness :
    (checkerRun 1 3 (some pendingW) [1, 2, 3, 4]).2.length = 3 ∧
      (∀ e ∈ (checkerRun 1 3 (some pendingW) [1, 2, 3, 4]).2,
        e.2.1 = pendingW.payload ∧ e.2.2 = pendingW.seq) ∧
      spacedFrom 1 pendingW.last_sent
        ((checkerRun 1 3 (some pendingW) [1, 2, 3, 4]).2.map (fun e => e.1)) = true ∧
      (∀ pm : PendingMessage, ∀ now : ℚ, pm.retries = 3 →
        1 ≤ now - pm.last_sent →
        checkerRun 1 3 (some pm) [now] = (none, [])) :=
  checker_retransmits_max_retries_then_drops 1 3 pendingW [1, 2, 3, 4] rfl
    (by norm_num [checkerRun, pendingW])

/-- Claim C10: for every starting health and every damage amount, the
damage-application operations set the targeted health to
`max(0, old - dmg)`, so the result is never negative (and the health of
the other side is untouched). -/
theorem apply_damage_clamps_at_zero (st : BattleState) (dmg : ℤ) :
    (apply_damage_to_peer st dmg).peer_hp = max 0 (st.peer_hp - dmg) ∧
      (apply_damage_to_me st dmg).my_hp = max 0 (st.my_hp - dmg) ∧
      0 ≤ (apply_damage_to_peer st dmg).peer_hp ∧
      0 ≤ (apply_damage_to_me st dmg).my_hp ∧
      (apply_damage_to_peer st dmg).my_hp = st.my_hp ∧
      (apply_damage_to_me st dmg).peer_hp = st.peer_hp :=
  ⟨rfl, rfl, le_max_left 0 _, le_max_left 0 _, rfl, rfl⟩

/-- Claim C7: when the explicit destination is omitted and no tracked peer
address is set, `send` reports the explicit no-destination error to its
caller and transmits nothing (it does not reach the reliability layer);
whenever a destination is available it delegates to the reliability layer
at the resolved address. -/
theorem send_without_destination_errors :
    PeerNode_send none none = SendResult.noDestination ∧
      (∀ d : Addr, PeerNode_send none none ≠ SendResult.delegated d) ∧
      (∀ p : Option Addr, ∀ a : Addr,
        PeerNode_send p (some a) = SendResult.delegated a) ∧
      (∀ a : Addr, PeerNode_send (some a) none = SendResult.delegated a) :=
  ⟨rfl, fun _ h => SendResult.noConfusion h, fun _ _ => rfl, fun _ => rfl⟩

theorem recv_step_processed_mono (st : NodeState) (m : InMsg) (a : Addr) :
    ∀ s : ℤ, s ∈ st.processed_seqs → s ∈ ((recv_step st m a).state).processed_seqs := by
  intro s hs
  unfold recv_step
  split
  · exact hs
  · split
    · split
      · exact hs
      · dsimp only
        split <;> exact List.mem_cons_of_mem _ hs
    · dsimp only
      split <;> exact hs

theorem recv_step_dispatch_positive_seq (st : NodeState) (m : InMsg) (a : Addr) :
    0 < m.seq → (recv_step st m a).dispatched = true →
      m.seq ∉ st.processed_seqs ∧ m.seq ∈ ((recv_step st m a).state).processed_seqs := by
  intro hpos
  unfold recv_step
  by_cases hack : (m.mtype == "ACK") = true
  · rw [if_pos hack]
    intro hdisp
    exact absurd hdisp (by simp)
  · rw [if_neg hack, if_pos hpos]
    by_cases hc : st.processed_seqs.contains m.seq = true
    · rw [if_pos hc]
      intro hdisp
      exact absurd hdisp (by simp)
    · rw [if_neg hc]
      intro _
      refine ⟨fun hmem => hc (List.elem_iff.mpr hmem), ?_⟩
      dsimp only
      split <;> exact List.mem_cons_self _ _

theorem dispatch_count_zero_of_processed (msgs : List (InMsg × Addr)) :
    ∀ st : NodeState, ∀ s : ℤ, 0 < s → s ∈ st.processed_seqs →
      dispatch_count st msgs s = 0 := by
  induction msgs with
  | nil => intro st s _ _; rfl
  | cons p rest ih =>
    intro st s hpos hs
    obtain ⟨m, a⟩ := p
    unfold dispatch_count
    rw [ih _ s hpos (recv_step_processed_mono st m a s hs)]
    have hhead : ¬((recv_step st m a).dispatched = true ∧ m.seq = s) := by
      rintro ⟨hd, hseq⟩
      exact ((recv_step_dispatch_positive_seq st m a (hseq ▸ hpos) hd).1) (hseq ▸ hs)
    split
    · rename_i hcond
      rw [Bool.and_eq_true, beq_iff_eq] at hcond
      exact absurd hcond hhead
    · rfl

/-- Claim C5: for every inbound non-ACK datagram with a positive sequence
number the receive loop transmits exactly one acknowledgment for that
arrival — also when the sequence number was already seen, in which case
the duplicate is dropped after the acknowledgment with no dispatch and no
state change — and across any run of the loop a given positive sequence
number is dispatched to the application handler at most once. -/
theorem recv_loop_acks_once_dispatches_at_most_once
    (st : NodeState) (m : InMsg) (addr : Addr) (msgs : List (InMsg × Addr)) (s : ℤ) :
    (m.mtype ≠ "ACK" → 0 < m.seq → (recv_step st m addr).acks_sent = [m.seq]) ∧
      (m.mtype ≠ "ACK" → 0 < m.seq → m.seq ∈ st.processed_seqs →
        (recv_step st m addr).dispatched = false ∧ (recv_step st m addr).state = st) ∧
      (0 < s → dispatch_count st msgs s ≤ 1) := by
  refine ⟨fun hneq hpos => ?_, fun hneq hpos hmem => ?_, fun hpos => ?_⟩
  · unfold recv_step
    rw [if_neg (by simpa using hneq), if_pos hpos]
    split
    · rfl
    · rfl
  · unfold recv_step
    rw [if_neg (by simpa using hneq), if_pos hpos, if_pos (List.elem_iff.mpr hmem)]
    exact ⟨rfl, rfl⟩
  · induction msgs generalizing st with
    | nil => simp [dispatch_count]
    | cons p rest ih =>
      obtain ⟨m2, a2⟩ := p
      unfold dispatch_count
      split
      · rename_i hcond
        rw [Bool.and_eq_true, beq_iff_eq] at hcond
        have hadded := (recv_step_dispatch_positive_seq st m2 a2 (hcond.2 ▸ hpos) hcond.1).2
        rw [hcond.2] at hadded
        rw [dispatch_count_zero_of_processed rest _ s hpos hadded]
      · have := ih ((recv_step st m2 a2).state)
        omega

/-- Witness for C5: a concrete duplicate delivery — sequence 3 arrives
twice at a fresh node; each arrival is acknowledged once, the second is
not dispatched, and the dispatch count of sequence 3 over the whole run
is 1. -/
theorem recv_loop_acks_once_witness :
    (recv_step (NodeState.mk [3] none) (InMsg.mk "ATTACK_ANNOUNCE" 3 0)
        ("127.0.0.1", 7777)).acks_sent = [3] ∧
      (recv_step (NodeState.mk [3] none) (InMsg.mk "ATTACK_ANNOUNCE" 3 0)
        ("127.0.0.1", 7777)).dispatched = false ∧
      dispatch_count (NodeState.mk [] none)
        [(InMsg.mk "ATTACK_ANNOUNCE" 3 0, ("127.0.0.1", 7777)),
          (InMsg.mk "ATTACK_ANNOUNCE" 3 0, ("127.0.0.1", 7777))] 3 ≤ 1 := by
  obtain ⟨h1, h2, _⟩ := recv_loop_acks_once_dispatches_at_most_once
    (NodeState.mk [3] none) (InMsg.mk "ATTACK_ANNOUNCE" 3 0) ("127.0.0.1", 7777) [] 3
  obtain ⟨_, _, h3⟩ := recv_loop_acks_once_dispatches_at_most_once
    (NodeState.mk [] none) (InMsg.mk "ATTACK_ANNOUNCE" 3 0) ("127.0.0.1", 7777)
    [(InMsg.mk "ATTACK_ANNOUNCE" 3 0, ("127.0.0.1", 7777)),
      (InMsg.mk "ATTACK_ANNOUNCE" 3 0, ("127.0.0.1", 7777))] 3
  exact ⟨h1 (by decide) (by decide), (h2 (by decide) (by decide) (by decide)).1,
    h3 (by decide)⟩

/-- Counterexample to claim C8: at epoch time 1700000000 the handshake
response sent to a spectator carries the nonzero seed 1700000000, not a
null/zero seed; and an inbound SPECTATOR_REQUEST at a node with no
tracked peer address does set the address of the spectator as the
reliability-tracked peer address (`network.py` lists SPECTATOR_REQUEST
among the peer-address-setting message types). -/
theorem spectator_request_claim_counterexample :
    spectator_response_seed 1700000000 ≠ 0 ∧
      ((recv_step (NodeState.mk [] none) (InMsg.mk "SPECTATOR_REQUEST" 1 0)
          ("10.0.0.2", 4242)).state).peer_addr = some ("10.0.0.2", 4242) := by
  constructor
  · decide
  · rfl

/-- Claim C8 as amended: the reply of the host to a spectator request is a
handshake response whose seed is the current time masked to 31 bits
(zero exactly when `2^31` divides the time, so in general nonzero), and
a spectator request received while no peer address is tracked sets the
address of the spectator as the reliability-tracked peer address; an
already tracked peer address is never overwritten. -/
theorem spectator_request_amended (t : ℕ) (st : NodeState) (m : InMsg) (addr : Addr) :
    (2^31 ∣ t → spectator_response_seed t = 0) ∧
      (¬ 2^31 ∣ t → spectator_response_seed t ≠ 0) ∧
      (st.peer_addr = none → m.mtype = "SPECTATOR_REQUEST" → 0 < m.seq →
        st.processed_seqs.contains m.seq = false →
        ((recv_step st m addr).state).peer_addr = some addr) ∧
      (∀ a0 : Addr, st.peer_addr = some a0 →
        ((recv_step st m addr).state).peer_addr = some a0) := by
  refine ⟨?_, ?_, ?_, ?_⟩
  · intro hdvd
    unfold spectator_response_seed
    omega
  · intro hndvd
    unfold spectator_response_seed
    omega
  · intro hpa hmt hpos hc
    unfold recv_step
    rw [if_neg (by rw [hmt]; decide), if_pos hpos, if_neg (by rw [hc]; simp)]
    dsimp only
    rw [if_pos (by rw [hmt, hpa]; decide)]
  · intro a0 ha0
    unfold recv_step
    split
    · exact ha0
    · split
      · split
        · exact ha0
        · dsimp only
          rw [if_neg (by simp [ha0])]
          exact ha0
      · dsimp only
        rw [if_neg (by simp [ha0])]
        exact ha0

/-- Witness for the amended C8 at concrete inputs. -/
theorem spectator_request_amended_witness :
    spectator_response_seed 1700000000 ≠ 0 ∧
      ((recv_step (NodeState.mk [] none) (InMsg.mk "SPECTATOR_REQUEST" 1 0)
          ("10.0.0.9", 4243)).state).peer_addr = some ("10.0.0.9", 4243) ∧
      ((recv_step (NodeState.mk [] (some ("1.2.3.4", 1))) (InMsg.mk "SPECTATOR_REQUEST" 1 0)
          ("10.0.0.9", 4243)).state).peer_addr = some ("1.2.3.4", 1) := by
  obtain ⟨_, h2, h3, _⟩ := spectator_request_amended 1700000000
    (NodeState.mk [] none) (InMsg.mk "SPECTATOR_REQUEST" 1 0) ("10.0.0.9", 4243)
  obtain ⟨_, _, _, h4⟩ := spectator_request_amended 1700000000
    (NodeState.mk [] (some ("1.2.3.4", 1))) (InMsg.mk "SPECTATOR_REQUEST" 1 0)
    ("10.0.0.9", 4243)
  exact ⟨h2 (by decide), h3 rfl rfl (by decide) rfl, h4 ("1.2.3.4", 1) rfl⟩

/-- Claim C6 (code bug, at the failing input): on a DEFENSE_ANNOUNCE with
last announced move thunderbolt (special, power 90, type electric),
attacker special attack 100, defender special defense 100 and defender
resistance entry `against_electric = 2.0`, the handler computes damage 42
— `compute_damage` is called without a type-effectiveness argument, so
the multiplier is always the default 1.0 and the resistance table is
never consulted — whereas the claimed lookup yields multiplier 2.0 and
damage 83. The final conjunct shows the damage the code computes is
independent of the resistance table of the defender altogether. -/
theorem defense_announce_ignores_type_effectiveness :
    defense_announce_damage attackerW defenderW "thunderbolt" = 42 ∧
      claimed_defense_announce_damage attackerW defenderW "thunderbolt" = 83 ∧
      defense_announce_damage attackerW defenderW "thunderbolt" ≠
        claimed_defense_announce_damage attackerW defenderW "thunderbolt" ∧
      (∀ my peer : Pokemon, ∀ mv : String, ∀ row : List (String × Option ℚ),
        defense_announce_damage my peer mv =
          defense_announce_damage my
            (Pokemon.mk peer.hp peer.attack peer.defense peer.sp_attack
              peer.sp_defense peer.type1 peer.type2 row) mv) := by
  have h1 : defense_announce_damage attackerW defenderW "thunderbolt" =
      compute_damage 100 100 90 1 1 50 := rfl
  have h2 : claimed_defense_announce_damage attackerW defenderW "thunderbolt" =
      compute_damage 100 100 90 2 1 50 := rfl
  have hv1 : compute_damage 100 100 90 1 1 50 = 42 := by
    norm_num [compute_damage, pyround]
  have hv2 : compute_damage 100 100 90 2 1 50 = 83 := by
    norm_num [compute_damage, pyround]
  refine ⟨h1.trans hv1, h2.trans hv2, ?_, fun my peer mv row => rfl⟩
  rw [h1.trans hv1, h2.trans hv2]
  omega

end PokeProtocol
